import Mathlib

set_option maxHeartbeats 1000000

/- Formal model of css-minimizer-webpack-plugin, embedded from src/index.js.
   The webpack compilation is modelled as a record holding an asset list and
   the diagnostic lists; external collaborators that are not part of this
   repository (the minifier function in ./minify, the cache engines, the
   source-map library SourceMapConsumer, webpack RequestShortener and
   ModuleFilenameHelpers.matchObject) are abstract function parameters
   collected in OptimizeEnv. -/

/- JavaScript truthiness helpers. -/

/-- Truthiness of a nullable string: the empty string is falsy in JS. -/
def strTruthy : Option String → Option String
  | some s => if s = "" then none else some s
  | none => none

/-- Truthiness of a nullable number: 0 is falsy in JS. -/
def jsTruthyNat : Option Nat → Option Nat
  | some n => if n = 0 then none else some n
  | none => none

/-- Template-literal rendering of a possibly null number: String(null) is "null". -/
def jsStrOfNull : Option Nat → String
  | some n => Nat.repr n
  | none => "null"

/-- Template-literal rendering of a possibly undefined number: String(undefined) is "undefined". -/
def jsStrOfUndef : Option Nat → String
  | some n => Nat.repr n
  | none => "undefined"

/-- Boolean prefix test on character lists (second argument is the candidate prefix of the first). -/
def hasPrefixL : List Char → List Char → Bool
  | _, [] => true
  | [], _ :: _ => false
  | c :: cs, p :: ps => c == p && hasPrefixL cs ps

/-- Boolean substring test on character lists, modelling String.prototype.includes. -/
def hasSubstr : List Char → List Char → Bool
  | [], p => hasPrefixL [] p
  | c :: cs, p => hasPrefixL (c :: cs) p || hasSubstr cs p

/-- JS String.prototype.includes on Lean strings. -/
def jsIncludes (s sub : String) : Bool :=
  hasSubstr s.data sub.data

/- Model of the warning regex, src/index.js line 21:
   warningRegex = one whitespace character, a greedy nonempty run of
   non-line-terminator characters, a run of colons, a digit group (match[1]),
   a run of colons, a digit group (match[2]).
   The functions below implement the leftmost-match, greedy-backtracking
   semantics of RegExp.prototype.exec for this pattern. -/

/-- JS regex whitespace class membership for a character. -/
def jsIsSpaceChar (c : Char) : Bool :=
  let n := c.toNat
  n == 9 || n == 10 || n == 11 || n == 12 || n == 13 || n == 32 ||
    n == 0xa0 || n == 0x1680 || (decide (0x2000 ≤ n) && decide (n ≤ 0x200a)) ||
    n == 0x2028 || n == 0x2029 || n == 0x202f || n == 0x205f || n == 0x3000 ||
    n == 0xfeff

/-- Characters matched by the regex dot: everything but line terminators. -/
def jsIsDotChar (c : Char) : Bool :=
  let n := c.toNat
  !(n == 10 || n == 13 || n == 0x2028 || n == 0x2029)

/-- Longest run of characters satisfying p at the head of the list, with the rest. -/
def takeRun (p : Char → Bool) : List Char → Nat × List Char
  | [] => (0, [])
  | c :: cs =>
    if p c then
      let r := takeRun p cs
      (r.1 + 1, r.2)
    else (0, c :: cs)

/-- Numeric value of a digit string, as JS unary plus computes it for digits. -/
def digitsToNat (l : List Char) : Nat :=
  l.foldl (fun a c => a * 10 + (c.toNat - 48)) 0

/-- Parse a colon run, digit group, colon run, digit group at the head of the
list; on success return the consumed length and the two digit group values. -/
def parseColDigits (l : List Char) : Option (Nat × Nat × Nat) :=
  let c1 := takeRun (fun c => c == ':') l
  if c1.1 = 0 then none else
  let d1 := takeRun Char.isDigit c1.2
  if d1.1 = 0 then none else
  let c2 := takeRun (fun c => c == ':') d1.2
  if c2.1 = 0 then none else
  let d2 := takeRun Char.isDigit c2.2
  if d2.1 = 0 then none else
  some (c1.1 + d1.1 + c2.1 + d2.1, digitsToNat (c1.2.take d1.1),
    digitsToNat (c2.2.take d2.1))

/-- Greedy backtracking over the dot-run length: try j characters for the
nonempty dot run, longest first; return total consumed length after the
whitespace character, and the two captured numbers. -/
def tryDotRun (rest : List Char) : Nat → Option (Nat × Nat × Nat)
  | 0 => none
  | j + 1 =>
    match parseColDigits (rest.drop (j + 1)) with
    | some r => some (j + 1 + r.1, r.2.1, r.2.2)
    | none => tryDotRun rest j

/-- Try to match the warning regex anchored at the head of the list; on
success return the match length and the two captured numbers. -/
def matchAt : List Char → Option (Nat × Nat × Nat)
  | [] => none
  | c :: rest =>
    if jsIsSpaceChar c then
      match tryDotRun rest (takeRun jsIsDotChar rest).1 with
      | some r => some (1 + r.1, r.2.1, r.2.2)
      | none => none
    else none

/-- Leftmost match of the warning regex: start index, match length, and the
two captured numbers (line and column). -/
def findMatch : List Char → Option (Nat × Nat × Nat × Nat)
  | [] => none
  | c :: cs =>
    match matchAt (c :: cs) with
    | some r => some (0, r.1, r.2.1, r.2.2)
    | none =>
      match findMatch cs with
      | some r => some (r.1 + 1, r.2.1, r.2.2.1, r.2.2.2)
      | none => none

/-- warningMessage.replace(warningRegex, the empty string): remove the
leftmost match from the string, or return the string unchanged. -/
def warningRegexReplace (s : String) : String :=
  match findMatch s.data with
  | some r => String.mk (s.data.take r.1 ++ s.data.drop (r.1 + r.2.1))
  | none => s

/- Source map data model, src/index.js lines 64 to 74. -/

/-- Raw source map object as extracted from a webpack source; Option fields
model JS fields that may be absent, the typed fields subsume the
Array.isArray and typeof string checks of isSourceMap. -/
structure RawSourceMap where
  version : Option Nat
  sources : Option (List String)
  mappings : Option String
deriving DecidableEq

/-- isSourceMap, src/index.js lines 64 to 74: input truthy, version truthy,
sources present and an array, mappings of type string. -/
def isSourceMap (input : Option RawSourceMap) : Bool :=
  match input with
  | none => false
  | some m =>
    (match m.version with
     | some v => !(v == 0)
     | none => false) &&
    m.sources.isSome && m.mappings.isSome

/-- Result of SourceMapConsumer.originalPositionFor: fields are null when the
position does not resolve. -/
structure OriginalPosition where
  source : Option String
  line : Option Nat
  column : Option Nat

/-- Abstract SourceMapConsumer (external source-map library): a total lookup
from a generated line and possibly absent column to an original position. -/
def SMConsumer : Type := Nat → Option Nat → OriginalPosition

/- buildError, src/index.js lines 76 to 113. -/

/-- Error thrown by a minifier call, carrying the optional fields the code
inspects. -/
structure MinifyError where
  line : Option Nat
  column : Option Nat
  message : String
  stack : Option String
deriving DecidableEq

/-- Stack suffix appended by buildError inside the error.line branch: a
newline plus every stack line after the first, or the empty string when
error.stack is falsy. -/
def stackSuffix (stack : Option String) : String :=
  match strTruthy stack with
  | some st => "\n" ++ String.intercalate "\n" ((st.splitOn "\n").drop 1)
  | none => ""

/-- buildError, src/index.js lines 76 to 113, producing the error message
string. -/
def buildError (e : MinifyError) (file : String) (sourceMap : Option SMConsumer)
    (requestShortener : Option (String → String)) : String :=
  match jsTruthyNat e.line with
  | some line =>
    match sourceMap with
    | some sm =>
      let orig := sm line e.column
      match strTruthy orig.source, requestShortener with
      | some src, some shorten =>
        file ++ (" from Css Minimizer Webpack Plugin\n" ++ e.message ++ " [" ++
          shorten src ++ ":" ++ jsStrOfNull orig.line ++ "," ++
          jsStrOfNull orig.column ++ "][" ++ file ++ ":" ++ Nat.repr line ++
          "," ++ jsStrOfUndef e.column ++ "]" ++ stackSuffix e.stack)
      | _, _ =>
        file ++ (" from Css Minimizer \n" ++ e.message ++ " [" ++ file ++ ":" ++
          Nat.repr line ++ "," ++ jsStrOfUndef e.column ++ "]" ++
          stackSuffix e.stack)
    | none =>
      file ++ (" from Css Minimizer \n" ++ e.message ++ " [" ++ file ++ ":" ++
        Nat.repr line ++ "," ++ jsStrOfUndef e.column ++ "]" ++
        stackSuffix e.stack)
  | none =>
    match strTruthy e.stack with
    | some st => file ++ (" from Css Minimizer\n" ++ st)
    | none => file ++ (" from Css Minimizer\n" ++ e.message)

/- buildWarning, src/index.js lines 115 to 158. -/

/-- The first stage of buildWarning, src/index.js lines 122 to 151: compute
the (possibly rewritten) warning message, the location message, and the
resolved original source handed to the warnings filter. -/
def buildWarningData (warning file : String) (sourceMap : Option SMConsumer)
    (requestShortener : Option (String → String)) :
    String × String × Option String :=
  match sourceMap with
  | none => (warning, "", none)
  | some sm =>
    match findMatch warning.data with
    | none => (warning, "", none)
    | some r =>
      let line := r.2.2.1
      let column := r.2.2.2
      let original := sm line (some column)
      match strTruthy original.source, requestShortener with
      | some src, some shorten =>
        if src = file then (warning, "", none)
        else
          (warningRegexReplace warning,
           shorten src ++ ":" ++ jsStrOfNull original.line ++ ":" ++
             jsStrOfNull original.column,
           some src)
      | _, _ => (warning, "", none)

/-- buildWarning, src/index.js lines 115 to 158: returns none when the
warnings filter suppresses the warning, else the formatted message. -/
def buildWarning (warning file : String) (sourceMap : Option SMConsumer)
    (requestShortener : Option (String → String))
    (warningsFilter : Option (String → String → Option String → Bool)) :
    Option String :=
  let d := buildWarningData warning file sourceMap requestShortener
  let keep :=
    match warningsFilter with
    | some f => f warning file d.2.2
    | none => true
  if keep then some ("Css Minimizer Plugin: " ++ d.1 ++ " " ++ d.2.1) else none

/- Data model of webpack sources and the compilation, as used by optimize
   (src/index.js lines 192 to 407). -/

/-- A webpack source object held in the asset store. The orig constructor
models a host-produced source: its source() text and, when the object has a
sourceAndMap method, that method's result. raw models RawSource(code);
sourceMapSource models SourceMapSource(code, name, map, originalSource,
innerSourceMap) as built on lines 357 to 368. -/
inductive WSource where
  | orig (text : String) (sam : Option (String × Option RawSourceMap))
  | raw (code : String)
  | sourceMapSource (code : String) (name : String) (map : RawSourceMap)
      (originalSource : String) (innerSourceMap : Option RawSourceMap)
deriving DecidableEq

/-- The source() accessor of a webpack source object. -/
def WSource.sourceText : WSource → String
  | .orig t _ => t
  | .raw c => c
  | .sourceMapSource c _ _ _ _ => c

/-- The sourceAndMap() accessor, none when the object lacks the method. -/
def WSource.sourceAndMap : WSource → Option (String × Option RawSourceMap)
  | .orig _ sam => sam
  | .raw c => some (c, none)
  | .sourceMapSource c _ m _ _ => some (c, some m)

/-- Asset info metadata; only the minimized flag is inspected or written by
the plugin. -/
structure AssetInfo where
  minimized : Bool
deriving DecidableEq

/-- The slice of the webpack compilation the plugin touches: the asset store
(an insertion-ordered association list, mirroring Object.keys enumeration)
and the diagnostics lists. -/
structure Compilation where
  assets : List (String × WSource × AssetInfo)
  errors : List String
  warnings : List String
deriving DecidableEq

/-- compilation.warnings.push for a batch of warnings. -/
def pushWarnings (comp : Compilation) (ws : List String) : Compilation :=
  { comp with warnings := comp.warnings ++ ws }

/-- updateAsset, src/index.js lines 182 to 190: replace the named entry of
the asset store with the new source and info. -/
def updateAssetList (l : List (String × WSource × AssetInfo)) (name : String)
    (s : WSource) (i : AssetInfo) : List (String × WSource × AssetInfo) :=
  l.map (fun e => if e.1 = name then (name, s, i) else e)

/-- The result object returned by a successful minify call: code, optional
map, warnings. -/
structure MinifyResult where
  code : String
  map : Option RawSourceMap
  warnings : List String
deriving DecidableEq

/-- The minimizerOptions payload built on lines 329 to 336 (the opaque
minimizerOptions and minify fields of the configuration are absorbed into
the abstract minifier function of OptimizeEnv). -/
structure MinifyPayload where
  name : String
  input : String
  inputSourceMap : Option RawSourceMap
  map : Bool
deriving DecidableEq

/-- The cacheData a cache engine is keyed with (line 298). On webpack 4 the
code additionally stores input, inputSourceMap and derived cacheKeys with an
md4 content hash into cacheData (lines 300 to 320); the cache engines are
not part of src, so that keying is absorbed into the abstract cacheGet
function of OptimizeEnv. -/
structure CacheData where
  name : String
  inputSource : WSource
deriving DecidableEq

/-- A stored or freshly built output: the minify result fields plus the
built webpack source object (the cache stores the spread of both, line
370). -/
structure MinifiedOutput where
  code : String
  map : Option RawSourceMap
  warnings : List String
  source : WSource
deriving DecidableEq

/-- Per-run environment of optimize: the effective configuration plus the
abstract external collaborators (matcher from
ModuleFilenameHelpers.matchObject on test/include/exclude, the minifier from
./minify or a worker, the cache engine, the source-map consumer factory, and
RequestShortener.shorten). -/
structure OptimizeEnv where
  sourceMap : Bool
  warningsFilter : String → String → Option String → Bool
  matcher : String → Bool
  minifier : MinifyPayload → Except MinifyError MinifyResult
  cacheGet : CacheData → Option MinifiedOutput
  consumerOf : RawSourceMap → SMConsumer
  shorten : String → String

/-- Input extraction, src/index.js lines 269 to 296: returns the input text,
the input source map handed on, and the warnings pushed during extraction (a
structurally invalid map is reported but still used as-is). -/
def extractInput (env : OptimizeEnv) (name : String) (inputSource : WSource) :
    String × Option RawSourceMap × List String :=
  if env.sourceMap then
    match inputSource.sourceAndMap with
    | some (source, map) =>
      match map with
      | some m =>
        if isSourceMap (some m) then (source, some m, [])
        else (source, some m, [name ++ " contains invalid source map"])
      | none => (source, none, [])
    | none => (inputSource.sourceText, none, [])
  else (inputSource.sourceText, none, [])

/-- The SourceMapConsumer argument built at lines 346 to 349 and 377 to 380:
a consumer is constructed only when the input map is structurally valid. -/
def consumerFor (env : OptimizeEnv) (m : Option RawSourceMap) : Option SMConsumer :=
  match m with
  | some mp => if isSourceMap (some mp) then some (env.consumerOf mp) else none
  | none => none

/-- Result of one scheduled per-asset task: the updated compilation, how many
times the minifier was invoked, and the cache store calls made. -/
structure StepResult where
  comp : Compilation
  minifierCalls : Nat
  stored : List (CacheData × MinifiedOutput)
deriving DecidableEq

/-- Tail of a per-asset task after an output is available (from the cache or
freshly minified), src/index.js lines 373 to 395: build and push the
filtered warnings of the output, then update the asset with the output
source and info.minimized set to true merged into the prior info. -/
def finishAsset (env : OptimizeEnv) (comp : Compilation) (name : String)
    (inputSourceMap : Option RawSourceMap) (info : AssetInfo)
    (output : MinifiedOutput) : Compilation :=
  let comp2 := pushWarnings comp (output.warnings.filterMap
    (fun w => buildWarning w name (consumerFor env inputSourceMap)
      (some env.shorten) (some env.warningsFilter)))
  { comp2 with
    assets := updateAssetList comp2.assets name output.source
      { info with minimized := true } }

/-- Body of a selected per-asset task once the asset is read and not yet
minimized, src/index.js lines 269 to 395: extract input, query the cache; on
miss invoke the minifier, on failure push a buildError and stop this task;
on success build the output source, store it in the cache, then finish. -/
def processSelectedAsset (env : OptimizeEnv) (comp : Compilation) (name : String)
    (inputSource : WSource) (info : AssetInfo) : StepResult :=
  let ext := extractInput env name inputSource
  let input := ext.1
  let inputSourceMap := ext.2.1
  let comp1 := pushWarnings comp ext.2.2
  match env.cacheGet ⟨name, inputSource⟩ with
  | some output => ⟨finishAsset env comp1 name inputSourceMap info output, 0, []⟩
  | none =>
    match env.minifier ⟨name, input, inputSourceMap, env.sourceMap⟩ with
    | .error err =>
      ⟨{ comp1 with
          errors := comp1.errors ++
            [buildError err name (consumerFor env inputSourceMap)
              (some env.shorten)] }, 1, []⟩
    | .ok res =>
      let src : WSource :=
        match res.map with
        | some m => .sourceMapSource res.code name m input inputSourceMap
        | none => .raw res.code
      let output : MinifiedOutput := ⟨res.code, res.map, res.warnings, src⟩
      ⟨finishAsset env comp1 name inputSourceMap info output, 1,
        [(⟨name, inputSource⟩, output)]⟩

/-- One scheduled per-asset task, src/index.js lines 256 to 397: read the
asset by name, skip it when already minimized (double minimize guard, line
265), else run the selected-asset body. -/
def processAsset (env : OptimizeEnv) (comp : Compilation) (name : String) :
    StepResult :=
  match List.lookup name comp.assets with
  | none => ⟨comp, 0, []⟩
  | some (inputSource, info) =>
    if info.minimized then ⟨comp, 0, []⟩
    else processSelectedAsset env comp name inputSource info

/-- Asset selection, src/index.js lines 192 to 213: keys of the asset store
that pass the configured test/include/exclude matcher and are not already
flagged minimized. -/
def selectedAssetNames (env : OptimizeEnv) (comp : Compilation) : List String :=
  (comp.assets.map Prod.fst).filter fun name =>
    env.matcher name &&
      match List.lookup name comp.assets with
      | some (_, info) => !info.minimized
      | none => false

/-- Aggregate result of an optimize run. -/
structure OptimizeResult where
  comp : Compilation
  minifierCalls : Nat
  stored : List (CacheData × MinifiedOutput)
deriving DecidableEq

/-- Folding step of optimize over the selected names. -/
def optimizeStep (env : OptimizeEnv) (acc : OptimizeResult) (name : String) :
    OptimizeResult :=
  let step := processAsset env acc.comp name
  ⟨step.comp, acc.minifierCalls + step.minifierCalls, acc.stored ++ step.stored⟩

/-- optimize, src/index.js lines 192 to 407: process every selected asset;
an empty selection is a no-op (line 215). The concurrent tasks touch
disjoint assets and only append to the diagnostics lists, so the run is
modelled as a sequential fold over the selected names. -/
def optimizeModel (env : OptimizeEnv) (comp : Compilation) : OptimizeResult :=
  (selectedAssetNames env comp).foldl (optimizeStep env) ⟨comp, 0, []⟩

/- Concurrency scheduling, src/index.js lines 160 to 168 and 219 to 248. -/

/-- The parallel configuration value: a boolean or an explicit number. -/
inductive ParallelOption where
  | ofBool (b : Bool)
  | ofNum (n : Int)
deriving DecidableEq

/-- getAvailableNumberOfCores, src/index.js lines 160 to 168. cpuCount models
the length of the array os.cpus() returns (the code substitutes an object of
length 1 when os.cpus() is undefined). Number(false) and Number(0) are
falsy, so the non-true branch computes min(Number(parallel) or 0,
cpus.length - 1). -/
def getAvailableNumberOfCores (parallel : ParallelOption) (cpuCount : Nat) : Int :=
  match parallel with
  | .ofBool true => (cpuCount : Int) - 1
  | .ofBool false => min 0 ((cpuCount : Int) - 1)
  | .ofNum n => min n ((cpuCount : Int) - 1)

/-- The scheduling decision of optimize, src/index.js lines 223 to 248:
concurrency none models the initial pLimit(Infinity); when the available
core count is positive a worker pool of min(assetCount, cores) workers is
created and the concurrency is bounded by that same number. -/
structure SchedulePlan where
  concurrency : Option Nat
  workerPool : Option Nat
deriving DecidableEq

/-- Scheduling decision from the available cores and the number of selected
assets, src/index.js lines 223 to 248. -/
def schedulePlan (cores : Int) (assetCount : Nat) : SchedulePlan :=
  if 0 < cores then
    let numWorkers := min assetCount cores.toNat
    { concurrency := some numWorkers, workerPool := some numWorkers }
  else { concurrency := none, workerPool := none }

/-- Line 338: a minify call runs in-process exactly when no worker pool was
created. -/
def dispatchInProcess (plan : SchedulePlan) : Bool :=
  plan.workerPool.isNone

/- Effective sourceMap resolution in apply, src/index.js lines 417 to 432. -/

/-- Model of an entry of compiler.options.plugins, carrying only what the
condition on lines 425 to 431 inspects: whether it is a
SourceMapDevToolPlugin instance, and its options.columns flag when options
is present. -/
structure PluginInstance where
  isSourceMapDevToolPlugin : Bool
  columnsOption : Option Bool
deriving DecidableEq

/-- The sourceMap resolution of apply, src/index.js lines 417 to 432:
an explicitly configured value is kept; otherwise the setting is inherited
from devtool (a string, or none for an unset or false devtool) and the
plugin list (none when compiler.options.plugins is undefined). -/
def resolveSourceMapOption (configured : Option Bool) (devtool : Option String)
    (plugins : Option (List PluginInstance)) : Bool :=
  match configured with
  | some b => b
  | none =>
    (match devtool with
     | some d =>
       !jsIncludes d "eval" && !jsIncludes d "cheap" &&
         (jsIncludes d "source-map" || jsIncludes d "sourcemap")
     | none => false) ||
    (match plugins with
     | some ps =>
       ps.any fun p =>
         p.isSourceMapDevToolPlugin &&
           (match p.columnsOption with
            | some c => c
            | none => false)
     | none => false)

/-- The inheritance condition exactly as the specification words it: the
devtool string does not contain "eval", does not contain "cheap", and
contains a source-map indicator; or a SourceMapDevToolPlugin companion is
configured with column info. -/
def specSourceMapDefault (devtool : Option String)
    (plugins : Option (List PluginInstance)) : Prop :=
  (∃ d, devtool = some d ∧ jsIncludes d "eval" = false ∧
    jsIncludes d "cheap" = false ∧
    (jsIncludes d "source-map" = true ∨ jsIncludes d "sourcemap" = true)) ∨
  (∃ ps, plugins = some ps ∧ ∃ p ∈ ps, p.isSourceMapDevToolPlugin = true ∧
    p.columnsOption = some true)

/- Concrete sample data used by the witness theorems. -/

/-- A structurally valid sample source map. -/
def cMapValid : RawSourceMap := ⟨some 3, some ["original.css"], some "AAAA"⟩

/-- A structurally invalid sample source map (version missing). -/
def cMapBad : RawSourceMap := ⟨none, some [], some ""⟩

/-- A sample consumer resolving every position to original.css:5:2. -/
def cSmOriginal : SMConsumer := fun _ _ => ⟨some "original.css", some 5, some 2⟩

/-- A sample consumer resolving every position to a.css:5:2 (the asset
itself). -/
def cSmSelf : SMConsumer := fun _ _ => ⟨some "a.css", some 5, some 2⟩

/-- Sample environment builder: permissive warnings filter, identity
shortener, a constant consumer factory. -/
def sampleEnv (sm : Bool) (matcher : String → Bool)
    (minifier : MinifyPayload → Except MinifyError MinifyResult)
    (cacheGet : CacheData → Option MinifiedOutput) : OptimizeEnv :=
  ⟨sm, fun _ _ _ => true, matcher, minifier, cacheGet,
    fun _ => fun _ _ => ⟨none, none, none⟩, fun s => s⟩

/-- A sample cached output with one carried warning. -/
def sampleOut : MinifiedOutput :=
  ⟨".a{color:red}", none, ["warned"], .raw ".a{color:red}"⟩

/-- A sample minifier error. -/
def sampleErr : MinifyError := ⟨some 1, some 2, "boom", none⟩

/-- Environment whose cache always hits with sampleOut. -/
def envHit : OptimizeEnv :=
  sampleEnv false (fun _ => true) (fun p => .ok ⟨p.input, none, []⟩)
    (fun _ => some sampleOut)

/-- Environment whose cache misses and whose minifier always fails. -/
def envErr : OptimizeEnv :=
  sampleEnv false (fun _ => true) (fun _ => .error sampleErr) (fun _ => none)

/-- Environment that rejects the name b.txt and minifies to the input. -/
def envSel : OptimizeEnv :=
  sampleEnv false (fun n => !(n == "b.txt")) (fun p => .ok ⟨p.input, none, []⟩)
    (fun _ => none)

/-- Environment with source maps requested, cache misses, identity
minifier. -/
def envBadMap : OptimizeEnv :=
  sampleEnv true (fun _ => true) (fun p => .ok ⟨p.input, none, []⟩)
    (fun _ => none)

/-- A one-asset compilation. -/
def compHit : Compilation :=
  ⟨[("a.css", WSource.orig ".a{color: red;  }" none, ⟨false⟩)], [], []⟩

/-- A two-asset compilation with a non-matching b.txt asset. -/
def compSel : Compilation :=
  ⟨[("a.css", WSource.orig ".a{}" none, ⟨false⟩),
    ("b.txt", WSource.orig "hello" none, ⟨false⟩)], [], []⟩

/-- A one-asset compilation whose source carries an invalid input map. -/
def compBad : Compilation :=
  ⟨[("a.css", WSource.orig ".a{}" (some (".a{}", some cMapBad)), ⟨false⟩)],
    [], []⟩

/- Theorems. -/

theorem hasPrefixL_append (p r : List Char) : hasPrefixL (p ++ r) p = true := by
  induction p with
  | nil => cases r <;> rfl
  | cons c cs ih => simp [hasPrefixL, ih]

theorem hasSubstr_append (p r : List Char) : hasSubstr (p ++ r) p = true := by
  cases p with
  | nil => cases r <;> simp [hasSubstr, hasPrefixL]
  | cons c cs =>
    have h := hasPrefixL_append (c :: cs) r
    simp only [List.cons_append] at h
    simp [hasSubstr, h]

/-- Substring test lifted to String, with the left part an exact prefix. -/
theorem jsIncludes_append (p r : String) : jsIncludes (p ++ r) p = true := by
  have hd : (p ++ r).data = p.data ++ r.data := by
    cases p; cases r; rfl
  rw [jsIncludes, hd]
  exact hasSubstr_append p.data r.data

/-- Every buildError message starts with the asset file name, hence mentions
it as a substring. -/
theorem buildError_mentions_file (e : MinifyError) (file : String)
    (sourceMap : Option SMConsumer) (requestShortener : Option (String → String)) :
    ∃ r, buildError e file sourceMap requestShortener = file ++ r := by
  unfold buildError
  cases jsTruthyNat e.line with
  | some line =>
    cases sourceMap with
    | some sm =>
      cases hsrc : strTruthy (sm line e.column).source with
      | some src =>
        cases requestShortener with
        | some shorten =>
          exact ⟨" from Css Minimizer Webpack Plugin\n" ++ e.message ++ " [" ++
            shorten src ++ ":" ++ jsStrOfNull (sm line e.column).line ++ "," ++
            jsStrOfNull (sm line e.column).column ++ "][" ++ file ++ ":" ++
            Nat.repr line ++ "," ++ jsStrOfUndef e.column ++ "]" ++
            stackSuffix e.stack, by simp only [hsrc]⟩
        | none =>
          exact ⟨" from Css Minimizer \n" ++ e.message ++ " [" ++ file ++ ":" ++
            Nat.repr line ++ "," ++ jsStrOfUndef e.column ++ "]" ++
            stackSuffix e.stack, by simp only [hsrc]⟩
      | none =>
        cases requestShortener with
        | some f =>
          exact ⟨" from Css Minimizer \n" ++ e.message ++ " [" ++ file ++ ":" ++
            Nat.repr line ++ "," ++ jsStrOfUndef e.column ++ "]" ++
            stackSuffix e.stack, by simp only [hsrc]⟩
        | none =>
          exact ⟨" from Css Minimizer \n" ++ e.message ++ " [" ++ file ++ ":" ++
            Nat.repr line ++ "," ++ jsStrOfUndef e.column ++ "]" ++
            stackSuffix e.stack, by simp only [hsrc]⟩
    | none => exact ⟨_, rfl⟩
  | none =>
    cases strTruthy e.stack with
    | some st => exact ⟨_, rfl⟩
    | none => exact ⟨_, rfl⟩

/- Helper lemmas about the optimize model. -/

theorem lookup_updateAssetList_ne (l : List (String × WSource × AssetInfo))
    (n m : String) (s : WSource) (i : AssetInfo) (h : n ≠ m) :
    List.lookup n (updateAssetList l m s i) = List.lookup n l := by
  induction l with
  | nil => rfl
  | cons e es ih =>
    rcases e with ⟨k, v⟩
    by_cases hk : k = m
    · subst hk
      simp only [updateAssetList, List.map_cons, if_pos rfl]
      simp only [updateAssetList] at ih
      simp [List.lookup_cons, beq_eq_false_iff_ne.2 h, ih]
    · simp only [updateAssetList, List.map_cons, if_neg hk]
      simp only [updateAssetList] at ih
      by_cases hnk : n = k
      · subst hnk
        simp [List.lookup_cons]
      · simp [List.lookup_cons, beq_eq_false_iff_ne.2 hnk, ih]

theorem processAsset_lookup_ne (env : OptimizeEnv) (comp : Compilation)
    (m other : String) (h : other ≠ m) :
    List.lookup other (processAsset env comp m).comp.assets =
      List.lookup other comp.assets := by
  unfold processAsset
  cases hl : List.lookup m comp.assets with
  | none => rfl
  | some p =>
    rcases p with ⟨src, info⟩
    cases hmz : info.minimized with
    | true => simp [hmz]
    | false =>
      simp only [hmz, Bool.false_eq_true, if_false, processSelectedAsset]
      cases hc : env.cacheGet ⟨m, src⟩ with
      | some output =>
        simp only [hc, finishAsset, pushWarnings]
        exact lookup_updateAssetList_ne _ _ _ _ _ h
      | none =>
        simp only [hc]
        cases hmin : env.minifier ⟨m, (extractInput env m src).1,
            (extractInput env m src).2.1, env.sourceMap⟩ with
        | error err => simp [hmin, pushWarnings]
        | ok res =>
          simp only [hmin, finishAsset, pushWarnings]
          exact lookup_updateAssetList_ne _ _ _ _ _ h

theorem foldl_lookup_preserved (env : OptimizeEnv) (names : List String)
    (other : String) (h : ∀ m ∈ names, other ≠ m) :
    ∀ acc : OptimizeResult,
      List.lookup other ((names.foldl (optimizeStep env) acc).comp.assets) =
        List.lookup other acc.comp.assets := by
  induction names with
  | nil => intro acc; rfl
  | cons m ms ih =>
    intro acc
    rw [List.foldl_cons]
    rw [ih (fun x hx => h x (List.mem_cons_of_mem m hx))]
    exact processAsset_lookup_ne env acc.comp m other (h m (List.mem_cons_self m ms))

theorem processAsset_warnings_shape (env : OptimizeEnv) (comp : Compilation)
    (name : String) (src : WSource) (info : AssetInfo)
    (hlook : List.lookup name comp.assets = some (src, info))
    (hmin : info.minimized = false) :
    ∃ tail, (processAsset env comp name).comp.warnings =
      comp.warnings ++ (extractInput env name src).2.2 ++ tail := by
  unfold processAsset
  simp only [hlook, hmin, Bool.false_eq_true, if_false, processSelectedAsset]
  cases hc : env.cacheGet ⟨name, src⟩ with
  | some output =>
    simp only [hc]
    exact ⟨List.filterMap (fun w => buildWarning w name
      (consumerFor env (extractInput env name src).2.1) (some env.shorten)
      (some env.warningsFilter)) output.warnings,
      by simp [finishAsset, pushWarnings]⟩
  | none =>
    simp only [hc]
    cases hmin2 : env.minifier ⟨name, (extractInput env name src).1,
        (extractInput env name src).2.1, env.sourceMap⟩ with
    | error err => exact ⟨[], by simp [hmin2, pushWarnings]⟩
    | ok res =>
      exact ⟨List.filterMap (fun w => buildWarning w name
        (consumerFor env (extractInput env name src).2.1) (some env.shorten)
        (some env.warningsFilter)) res.warnings,
        by simp [hmin2, finishAsset, pushWarnings]⟩

/- Claim C8. -/

/-- Claim C8: when the sourceMap option is unset, the effective setting is
true exactly when the devtool string implies full source maps (no "eval", no
"cheap", and a source-map indicator) or a SourceMapDevToolPlugin companion
is configured with column info; an explicitly set option is kept. -/
theorem c8_sourceMap_resolution (devtool : Option String)
    (plugins : Option (List PluginInstance)) :
    (resolveSourceMapOption none devtool plugins = true ↔
      specSourceMapDefault devtool plugins) ∧
    (∀ b, resolveSourceMapOption (some b) devtool plugins = b) := by
  refine ⟨?_, fun b => rfl⟩
  unfold resolveSourceMapOption specSourceMapDefault
  cases devtool with
  | none =>
    cases plugins with
    | none => simp
    | some ps =>
      simp only [Bool.false_or, List.any_eq_true, Bool.and_eq_true]
      constructor
      · rintro ⟨p, hp, hsm, hcol⟩
        refine Or.inr ⟨ps, rfl, p, hp, hsm, ?_⟩
        cases hco : p.columnsOption with
        | none => rw [hco] at hcol; exact absurd hcol (by simp)
        | some c =>
          rw [hco] at hcol
          cases c with
          | false => exact absurd hcol (by simp)
          | true => rfl
      · rintro (⟨d, hd, -⟩ | ⟨ps', hps, p, hp, hsm, hcol⟩)
        · exact absurd hd (by simp)
        · cases hps
          exact ⟨p, hp, hsm, by rw [hcol]⟩
  | some d =>
    cases plugins with
    | none =>
      simp only [Bool.or_false, Bool.and_eq_true, Bool.not_eq_true',
        Bool.or_eq_true]
      constructor
      · rintro ⟨⟨he, hc⟩, hind⟩
        exact Or.inl ⟨d, rfl, he, hc, hind⟩
      · rintro (⟨d', hd, he, hc, hind⟩ | ⟨ps', hps, -⟩)
        · cases hd; exact ⟨⟨he, hc⟩, hind⟩
        · exact absurd hps (by simp)
    | some ps =>
      simp only [Bool.or_eq_true, Bool.and_eq_true, Bool.not_eq_true',
        List.any_eq_true]
      constructor
      · rintro (⟨⟨he, hc⟩, hind⟩ | ⟨p, hp, hsm, hcol⟩)
        · exact Or.inl ⟨d, rfl, he, hc, hind⟩
        · refine Or.inr ⟨ps, rfl, p, hp, hsm, ?_⟩
          cases hco : p.columnsOption with
          | none => rw [hco] at hcol; exact absurd hcol (by simp)
          | some c =>
            rw [hco] at hcol
            cases c with
            | false => exact absurd hcol (by simp)
            | true => rfl
      · rintro (⟨d', hd, he, hc, hind⟩ | ⟨ps', hps, p, hp, hsm, hcol⟩)
        · cases hd; exact Or.inl ⟨⟨he, hc⟩, hind⟩
        · cases hps
          exact Or.inr ⟨p, hp, hsm, by rw [hcol]⟩

/- Claim C4. -/

/-- Claim C4 counterexample: when os.cpus() reports zero units, auto
parallelism computes cpus.length - 1 = -1, not max(cpus.length - 1, 0) = 0;
the claimed clamp to zero is absent from getAvailableNumberOfCores. -/
theorem c4_counterexample :
    ¬ getAvailableNumberOfCores (.ofBool true) 0 = max ((0 : Int) - 1) 0 := by
  decide

/-- Claim C4 amended: auto parallelism computes cpus.length - 1 with no
clamp (which coincides with max(cpus.length - 1, 0) whenever at least one
unit is reported); a numeric request n computes min(n, cpus.length - 1); in
particular requesting 2 on 4 units yields 2. -/
theorem c4_cores_formula (cpuCount : Nat) (n : Int) :
    getAvailableNumberOfCores (.ofBool true) cpuCount = (cpuCount : Int) - 1 ∧
    (1 ≤ cpuCount →
      getAvailableNumberOfCores (.ofBool true) cpuCount =
        max ((cpuCount : Int) - 1) 0) ∧
    getAvailableNumberOfCores (.ofNum n) cpuCount =
      min n ((cpuCount : Int) - 1) ∧
    getAvailableNumberOfCores (.ofNum 2) 4 = 2 := by
  refine ⟨rfl, ?_, rfl, by decide⟩
  intro h
  have he : getAvailableNumberOfCores (.ofBool true) cpuCount =
      (cpuCount : Int) - 1 := rfl
  rw [he]
  omega

/-- Witness for the amended claim C4, at 4 reported units and a numeric
request of 2. -/
theorem c4_cores_formula_witness :
    getAvailableNumberOfCores (.ofBool true) 4 = ((4 : Nat) : Int) - 1 ∧
    getAvailableNumberOfCores (.ofBool true) 4 = max (((4 : Nat) : Int) - 1) 0 ∧
    getAvailableNumberOfCores (.ofNum 2) 4 = min 2 (((4 : Nat) : Int) - 1) ∧
    getAvailableNumberOfCores (.ofNum 2) 4 = 2 :=
  ⟨(c4_cores_formula 4 2).1, (c4_cores_formula 4 2).2.1 (by decide),
   (c4_cores_formula 4 2).2.2.1, (c4_cores_formula 4 2).2.2.2⟩

/- Claim C5. -/

/-- Claim C5 counterexample: with 2 available cores (parallelism 2 on 4
units) and a single selected asset, fewer assets than worker slots, a worker
pool is still created (sized 1) and the call is not dispatched in-process. -/
theorem c5_counterexample :
    (1 : Int) < getAvailableNumberOfCores (.ofNum 2) 4 ∧
    (schedulePlan (getAvailableNumberOfCores (.ofNum 2) 4) 1).workerPool =
      some 1 ∧
    dispatchInProcess (schedulePlan (getAvailableNumberOfCores (.ofNum 2) 4) 1) =
      false := by
  decide

/-- Claim C5 amended: when the computed worker count is zero or negative,
every call runs in-process with no pool and an unbounded concurrency limit;
when it is positive, a pool of min(assetCount, workerCount) workers is
always created, calls are routed to it, and the concurrency bound equals
that pool size. -/
theorem c5_schedule_spec (cores : Int) (assetCount : Nat) :
    (cores ≤ 0 →
      schedulePlan cores assetCount = ⟨none, none⟩ ∧
      dispatchInProcess (schedulePlan cores assetCount) = true) ∧
    (0 < cores →
      schedulePlan cores assetCount =
        ⟨some (min assetCount cores.toNat), some (min assetCount cores.toNat)⟩ ∧
      dispatchInProcess (schedulePlan cores assetCount) = false) := by
  constructor
  · intro h
    rw [schedulePlan, if_neg (by omega)]
    exact ⟨rfl, rfl⟩
  · intro h
    rw [schedulePlan, if_pos h]
    exact ⟨rfl, rfl⟩

/-- Witness for the amended claim C5: no pool at -1 cores; a pool of
min(1, 2) = 1 workers at 2 cores and one asset. -/
theorem c5_schedule_spec_witness :
    (schedulePlan (-1) 5 = ⟨none, none⟩ ∧
      dispatchInProcess (schedulePlan (-1) 5) = true) ∧
    (schedulePlan 2 1 =
        ⟨some (min 1 (Int.toNat 2)), some (min 1 (Int.toNat 2))⟩ ∧
      dispatchInProcess (schedulePlan 2 1) = false) :=
  ⟨(c5_schedule_spec (-1) 5).1 (by decide),
   (c5_schedule_spec 2 1).2 (by decide)⟩

/- Claim C1. -/

/-- Claim C1: for an asset whose cache query returns a stored entry, the
minifier is not invoked (zero calls, and the step result is independent of
the minifier function), nothing new is stored, and the stored output is used
unconditionally: the asset is updated with the stored source and the stored
warnings are the ones reported, with no re-validation against the live
content. -/
theorem c1_cache_hit_reuses_stored (env : OptimizeEnv) (comp : Compilation)
    (name : String) (src : WSource) (info : AssetInfo) (out : MinifiedOutput)
    (hlook : List.lookup name comp.assets = some (src, info))
    (hmin : info.minimized = false)
    (hcache : env.cacheGet ⟨name, src⟩ = some out) :
    (processAsset env comp name).minifierCalls = 0 ∧
    (processAsset env comp name).stored = [] ∧
    (processAsset env comp name).comp.assets =
      updateAssetList comp.assets name out.source { minimized := true } ∧
    (processAsset env comp name).comp.warnings =
      comp.warnings ++ (extractInput env name src).2.2 ++
        List.filterMap (fun w => buildWarning w name
          (consumerFor env (extractInput env name src).2.1) (some env.shorten)
          (some env.warningsFilter)) out.warnings ∧
    (∀ f, processAsset { env with minifier := f } comp name =
      processAsset env comp name) := by
  refine ⟨?_, ?_, ?_, ?_, ?_⟩
  · simp only [processAsset, hlook, hmin, Bool.false_eq_true, if_false,
      processSelectedAsset, hcache]
  · simp only [processAsset, hlook, hmin, Bool.false_eq_true, if_false,
      processSelectedAsset, hcache]
  · simp only [processAsset, hlook, hmin, Bool.false_eq_true, if_false,
      processSelectedAsset, hcache, finishAsset, pushWarnings]
  · simp only [processAsset, hlook, hmin, Bool.false_eq_true, if_false,
      processSelectedAsset, hcache, finishAsset, pushWarnings]
  · intro f
    simp only [processAsset, hlook, hmin, Bool.false_eq_true, if_false,
      processSelectedAsset, hcache, finishAsset, pushWarnings, extractInput,
      consumerFor]

/-- Witness for claim C1 on a concrete one-asset compilation with a cache
hit. -/
theorem c1_witness :
    (processAsset envHit compHit "a.css").minifierCalls = 0 ∧
    (processAsset envHit compHit "a.css").stored = [] ∧
    (processAsset envHit compHit "a.css").comp.assets =
      updateAssetList compHit.assets "a.css" sampleOut.source
        { minimized := true } ∧
    (processAsset envHit compHit "a.css").comp.warnings =
      compHit.warnings ++
        (extractInput envHit "a.css" (WSource.orig ".a{color: red;  }" none)).2.2 ++
        List.filterMap (fun w => buildWarning w "a.css"
          (consumerFor envHit
            (extractInput envHit "a.css"
              (WSource.orig ".a{color: red;  }" none)).2.1)
          (some envHit.shorten) (some envHit.warningsFilter))
          sampleOut.warnings ∧
    (∀ f, processAsset { envHit with minifier := f } compHit "a.css" =
      processAsset envHit compHit "a.css") :=
  c1_cache_hit_reuses_stored envHit compHit "a.css"
    (WSource.orig ".a{color: red;  }" none) ⟨false⟩ sampleOut
    (by decide) (by decide) (by decide)

/- Claim C2. -/

/-- Claim C2: when the cache misses and the minifier call fails, exactly one
error is appended and it mentions the asset name; the asset store is
untouched (the failing asset keeps its content and minimized flag, and every
other asset is unaffected), and nothing is stored in the cache. The batch
itself never aborts: optimizeModel is a total fold, so the remaining
selected assets are still processed from this unchanged asset store. -/
theorem c2_minify_error_isolated (env : OptimizeEnv) (comp : Compilation)
    (name : String) (src : WSource) (info : AssetInfo) (err : MinifyError)
    (hlook : List.lookup name comp.assets = some (src, info))
    (hmin : info.minimized = false)
    (hcache : env.cacheGet ⟨name, src⟩ = none)
    (herr : env.minifier ⟨name, (extractInput env name src).1,
      (extractInput env name src).2.1, env.sourceMap⟩ = .error err) :
    (processAsset env comp name).comp.errors =
      comp.errors ++ [buildError err name
        (consumerFor env (extractInput env name src).2.1) (some env.shorten)] ∧
    jsIncludes (buildError err name
      (consumerFor env (extractInput env name src).2.1) (some env.shorten))
      name = true ∧
    (processAsset env comp name).comp.assets = comp.assets ∧
    List.lookup name (processAsset env comp name).comp.assets =
      some (src, info) ∧
    (∀ other, List.lookup other (processAsset env comp name).comp.assets =
      List.lookup other comp.assets) ∧
    (processAsset env comp name).stored = [] := by
  have hassets : (processAsset env comp name).comp.assets = comp.assets := by
    simp only [processAsset, hlook, hmin, Bool.false_eq_true, if_false,
      processSelectedAsset, hcache, herr, pushWarnings]
  refine ⟨?_, ?_, hassets, ?_, ?_, ?_⟩
  · simp only [processAsset, hlook, hmin, Bool.false_eq_true, if_false,
      processSelectedAsset, hcache, herr, pushWarnings]
  · obtain ⟨r, hr⟩ := buildError_mentions_file err name
      (consumerFor env (extractInput env name src).2.1) (some env.shorten)
    rw [hr]
    exact jsIncludes_append name r
  · rw [hassets]; exact hlook
  · intro other; rw [hassets]
  · simp only [processAsset, hlook, hmin, Bool.false_eq_true, if_false,
      processSelectedAsset, hcache, herr, pushWarnings]

/-- Witness for claim C2 on a concrete one-asset compilation whose minifier
always fails. -/
theorem c2_witness :
    (processAsset envErr compHit "a.css").comp.errors =
      compHit.errors ++ [buildError sampleErr "a.css"
        (consumerFor envErr
          (extractInput envErr "a.css"
            (WSource.orig ".a{color: red;  }" none)).2.1)
        (some envErr.shorten)] ∧
    jsIncludes (buildError sampleErr "a.css"
      (consumerFor envErr
        (extractInput envErr "a.css"
          (WSource.orig ".a{color: red;  }" none)).2.1)
      (some envErr.shorten)) "a.css" = true ∧
    (processAsset envErr compHit "a.css").comp.assets = compHit.assets ∧
    List.lookup "a.css" (processAsset envErr compHit "a.css").comp.assets =
      some (WSource.orig ".a{color: red;  }" none, ⟨false⟩) ∧
    (∀ other, List.lookup other (processAsset envErr compHit "a.css").comp.assets =
      List.lookup other compHit.assets) ∧
    (processAsset envErr compHit "a.css").stored = [] :=
  c2_minify_error_isolated envErr compHit "a.css"
    (WSource.orig ".a{color: red;  }" none) ⟨false⟩ sampleErr
    (by decide) (by decide) (by decide) rfl

/- Claim C10. -/

/-- Claim C10: the warning-reporting step runs after the cache lookup on
both paths, so the warnings carried by the used output are built and
appended on every run that uses it, including cache hits; a cached asset
re-emits its stored warnings on each build that reuses the entry. -/
theorem c10_warnings_reemitted_after_cache (env : OptimizeEnv)
    (comp : Compilation) (name : String) (src : WSource) (info : AssetInfo)
    (hlook : List.lookup name comp.assets = some (src, info))
    (hmin : info.minimized = false) :
    (∀ out, env.cacheGet ⟨name, src⟩ = some out →
      (processAsset env comp name).comp.warnings =
        comp.warnings ++ (extractInput env name src).2.2 ++
          List.filterMap (fun w => buildWarning w name
            (consumerFor env (extractInput env name src).2.1)
            (some env.shorten) (some env.warningsFilter)) out.warnings) ∧
    (∀ res, env.cacheGet ⟨name, src⟩ = none →
      env.minifier ⟨name, (extractInput env name src).1,
        (extractInput env name src).2.1, env.sourceMap⟩ = .ok res →
      (processAsset env comp name).comp.warnings =
        comp.warnings ++ (extractInput env name src).2.2 ++
          List.filterMap (fun w => buildWarning w name
            (consumerFor env (extractInput env name src).2.1)
            (some env.shorten) (some env.warningsFilter)) res.warnings) := by
  constructor
  · intro out hc
    simp only [processAsset, hlook, hmin, Bool.false_eq_true, if_false,
      processSelectedAsset, hc, finishAsset, pushWarnings]
  · intro res hc hok
    simp only [processAsset, hlook, hmin, Bool.false_eq_true, if_false,
      processSelectedAsset, hc, hok, finishAsset, pushWarnings]

/-- Witness for claim C10 on a concrete cache hit whose entry carries one
warning. -/
theorem c10_witness :
    (processAsset envHit compHit "a.css").comp.warnings =
      compHit.warnings ++
        (extractInput envHit "a.css" (WSource.orig ".a{color: red;  }" none)).2.2 ++
        List.filterMap (fun w => buildWarning w "a.css"
          (consumerFor envHit
            (extractInput envHit "a.css"
              (WSource.orig ".a{color: red;  }" none)).2.1)
          (some envHit.shorten) (some envHit.warningsFilter))
          sampleOut.warnings :=
  (c10_warnings_reemitted_after_cache envHit compHit "a.css"
    (WSource.orig ".a{color: red;  }" none) ⟨false⟩
    (by decide) (by decide)).1 sampleOut (by decide)

/- Claim C3. -/

/-- Claim C3: an asset whose name fails the configured matcher, or whose
info.minimized flag is already true, is not selected — so no per-asset task
(and hence no error or warning) is ever produced for it, optimizeModel being
the fold of processAsset over exactly the selected names — and a full
optimize run leaves its entry in the asset store byte-identical. -/
theorem c3_unselected_asset_untouched (env : OptimizeEnv) (comp : Compilation)
    (name : String) (src : WSource) (info : AssetInfo)
    (hlook : List.lookup name comp.assets = some (src, info))
    (h : env.matcher name = false ∨ info.minimized = true) :
    name ∉ selectedAssetNames env comp ∧
    List.lookup name (optimizeModel env comp).comp.assets = some (src, info) := by
  have hnotsel : name ∉ selectedAssetNames env comp := by
    unfold selectedAssetNames
    intro hmem
    rw [List.mem_filter] at hmem
    rcases hmem with ⟨-, hpred⟩
    rcases h with hm | hm
    · rw [hm] at hpred
      simp at hpred
    · rw [hlook] at hpred
      simp [hm] at hpred
  refine ⟨hnotsel, ?_⟩
  unfold optimizeModel
  rw [foldl_lookup_preserved env _ name
    (fun m hm he => hnotsel (he ▸ hm))]
  exact hlook

/-- Witness for claim C3: the b.txt asset of a two-asset compilation is not
selected and survives a full run byte-identical. -/
theorem c3_witness :
    "b.txt" ∉ selectedAssetNames envSel compSel ∧
    List.lookup "b.txt" (optimizeModel envSel compSel).comp.assets =
      some (WSource.orig "hello" none, ⟨false⟩) :=
  c3_unselected_asset_untouched envSel compSel "b.txt"
    (WSource.orig "hello" none) ⟨false⟩ (by decide) (Or.inl (by decide))

/- Claim C7. -/

/-- Claim C7: when source maps are requested and the extracted input map
fails the structural sanity check, extraction yields exactly one warning
naming the asset and still hands the invalid map on as the input source map;
the warning is appended to the compilation warnings ahead of any
output-carried warnings, and on a cache miss the minifier payload and the
stored entry both carry the invalid map as-is. -/
theorem c7_invalid_map_warns_and_continues (env : OptimizeEnv)
    (comp : Compilation) (name : String) (text : String) (m : RawSourceMap)
    (src : WSource) (info : AssetInfo)
    (hlook : List.lookup name comp.assets = some (src, info))
    (hmin : info.minimized = false)
    (hsm : env.sourceMap = true)
    (hsam : src.sourceAndMap = some (text, some m))
    (hbad : isSourceMap (some m) = false) :
    extractInput env name src =
      (text, some m, [name ++ " contains invalid source map"]) ∧
    jsIncludes (name ++ " contains invalid source map") name = true ∧
    (∃ tail, (processAsset env comp name).comp.warnings =
      comp.warnings ++ [name ++ " contains invalid source map"] ++ tail) ∧
    (env.cacheGet ⟨name, src⟩ = none →
      ∀ res, env.minifier ⟨name, text, some m, env.sourceMap⟩ = .ok res →
        (processAsset env comp name).stored =
          [(⟨name, src⟩, ⟨res.code, res.map, res.warnings,
            match res.map with
            | some mp => .sourceMapSource res.code name mp text (some m)
            | none => .raw res.code⟩)]) := by
  have hext : extractInput env name src =
      (text, some m, [name ++ " contains invalid source map"]) := by
    unfold extractInput
    rw [hsm]
    simp [hsam, hbad]
  refine ⟨hext, jsIncludes_append name " contains invalid source map", ?_, ?_⟩
  · obtain ⟨tail, htail⟩ := processAsset_warnings_shape env comp name src info
      hlook hmin
    rw [hext] at htail
    exact ⟨tail, by simpa using htail⟩
  · intro hc res hok
    simp only [processAsset, hlook, hmin, Bool.false_eq_true, if_false,
      processSelectedAsset, hc, hext, hok]

/-- Witness for claim C7 on a concrete asset carrying a structurally invalid
input map, with a cache miss and an identity minifier. -/
theorem c7_witness :
    extractInput envBadMap "a.css" (WSource.orig ".a{}" (some (".a{}", some cMapBad))) =
      (".a{}", some cMapBad, ["a.css" ++ " contains invalid source map"]) ∧
    jsIncludes ("a.css" ++ " contains invalid source map") "a.css" = true ∧
    (∃ tail, (processAsset envBadMap compBad "a.css").comp.warnings =
      compBad.warnings ++ ["a.css" ++ " contains invalid source map"] ++ tail) ∧
    (envBadMap.cacheGet ⟨"a.css", WSource.orig ".a{}" (some (".a{}", some cMapBad))⟩ = none →
      ∀ res, envBadMap.minifier ⟨"a.css", ".a{}", some cMapBad, envBadMap.sourceMap⟩ = .ok res →
        (processAsset envBadMap compBad "a.css").stored =
          [(⟨"a.css", WSource.orig ".a{}" (some (".a{}", some cMapBad))⟩,
            ⟨res.code, res.map, res.warnings,
              match res.map with
              | some mp => .sourceMapSource res.code "a.css" mp ".a{}" (some cMapBad)
              | none => .raw res.code⟩)]) :=
  c7_invalid_map_warns_and_continues envBadMap compBad "a.css" ".a{}" cMapBad
    (WSource.orig ".a{}" (some (".a{}", some cMapBad))) ⟨false⟩
    (by decide) (by decide) rfl (by decide) (by decide)

/- Claim C6. -/

/-- Claim C6: when the warning matches the position regex, the source map
resolves it to a truthy original source different from the asset, and the
filter keeps it, buildWarning strips the matched position substring from the
body and appends the shortened original location source:line:column; and
whenever the user-supplied predicate returns false on (rawWarning,
assetName, resolvedSourceOrNone), buildWarning returns none and the warning
is dropped. -/
theorem c6_buildWarning_format_and_filter (warning file : String)
    (sm : SMConsumer) (shorten : String → String)
    (wf : String → String → Option String → Bool)
    (i len line col : Nat) (src : String)
    (hmatch : findMatch warning.data = some (i, len, line, col))
    (hsrc : (sm line (some col)).source = some src)
    (hne : src ≠ "") (hnf : src ≠ file)
    (hkeep : wf warning file (some src) = true) :
    buildWarning warning file (some sm) (some shorten) (some wf) =
      some ("Css Minimizer Plugin: " ++ warningRegexReplace warning ++ " " ++
        (shorten src ++ ":" ++ jsStrOfNull (sm line (some col)).line ++ ":" ++
          jsStrOfNull (sm line (some col)).column)) ∧
    warningRegexReplace warning =
      String.mk (warning.data.take i ++ warning.data.drop (i + len)) ∧
    (∀ (w f : String) (smo : Option SMConsumer)
        (rso : Option (String → String))
        (wfd : String → String → Option String → Bool),
      wfd w f (buildWarningData w f smo rso).2.2 = false →
      buildWarning w f smo rso (some wfd) = none) := by
  refine ⟨?_, ?_, ?_⟩
  · unfold buildWarning buildWarningData
    simp only [hmatch, hsrc, strTruthy, if_neg hne, if_neg hnf, hkeep]
    simp
  · unfold warningRegexReplace
    rw [hmatch]
  · intro w f smo rso wfd hdrop
    unfold buildWarning
    simp [hdrop]

/-- Witness for claim C6 on the concrete warning string
"warn foo.css:5:2" resolved to original.css:5:2. -/
theorem c6_witness :
    buildWarning "warn foo.css:5:2" "a.css" (some cSmOriginal)
      (some (fun s => s)) (some (fun _ _ _ => true)) =
      some ("Css Minimizer Plugin: " ++ warningRegexReplace "warn foo.css:5:2" ++
        " " ++ ((fun (s : String) => s) "original.css" ++ ":" ++
          jsStrOfNull (cSmOriginal 5 (some 2)).line ++ ":" ++
          jsStrOfNull (cSmOriginal 5 (some 2)).column)) :=
  (c6_buildWarning_format_and_filter "warn foo.css:5:2" "a.css" cSmOriginal
    (fun s => s) (fun _ _ _ => true) 4 12 5 2 "original.css"
    (by decide) rfl (by decide) (by decide) rfl).1

/- Claim C9. -/

/-- Claim C9: when the source map resolves the matched position to a source
equal to the asset name itself, buildWarning performs no rewrite: the raw
body with the embedded position is kept and no location suffix is appended
(the trailing space is the separator in front of the empty location). -/
theorem c9_same_source_keeps_raw_body (warning file : String)
    (sm : SMConsumer) (shorten : String → String)
    (wf : String → String → Option String → Bool)
    (i len line col : Nat)
    (hmatch : findMatch warning.data = some (i, len, line, col))
    (hsrc : (sm line (some col)).source = some file)
    (hkeep : wf warning file none = true) :
    buildWarning warning file (some sm) (some shorten) (some wf) =
      some ("Css Minimizer Plugin: " ++ warning ++ " ") := by
  unfold buildWarning buildWarningData
  simp only [hmatch, hsrc, strTruthy]
  by_cases hf : file = ""
  · subst hf
    simp [hkeep, String.append_empty]
  · simp [hf, hkeep, String.append_empty]

/-- Witness for claim C9 on the concrete warning string "warn a.css:5:2"
whose position resolves back to a.css itself. -/
theorem c9_witness :
    buildWarning "warn a.css:5:2" "a.css" (some cSmSelf)
      (some (fun s => s)) (some (fun _ _ _ => true)) =
      some ("Css Minimizer Plugin: " ++ "warn a.css:5:2" ++ " ") :=
  c9_same_source_keeps_raw_body "warn a.css:5:2" "a.css" cSmSelf
    (fun s => s) (fun _ _ _ => true) 4 10 5 2 (by decide) rfl rfl
